import Mathlib

/-
Shallow embedding of the ssdeep-rs safe wrapper layer (src/src/lib.rs) and
the constants of its foreign primitive interface (src/libfuzzy-sys/lib.rs).

Modelling conventions:
- Byte sequences are `List Nat` with every element a byte value (< 256 where
  it matters); Rust `String` results are modelled by their UTF-8 byte lists.
- The native calls (fuzzy_compare, fuzzy_hash_buf, fuzzy_hash_filename) are
  external C code, not part of this repository: each wrapper is parameterised
  by the native call's observable outcome (the returned status code and, for
  hashing, the contents of the 148-byte result memory after the call).
- A Rust panic (assert failure, unwrap on None/Err) is the `Outcome.panic`
  constructor; a recoverable `Err(Error)` is `Outcome.err`; success is
  `Outcome.ok`.
-/

namespace Ssdeep

/-- From src/libfuzzy-sys/lib.rs: length of an individual fuzzy hash
signature component. -/
def SPAMSUM_LENGTH : Nat := 64

/-- From src/libfuzzy-sys/lib.rs: the longest possible length for a fuzzy
hash signature (2 * 64 + 20 = 148). -/
def FUZZY_MAX_RESULT : Nat := 2 * SPAMSUM_LENGTH + 20

/-- From src/src/lib.rs: the error enum. `CFunctionFailed` carries the name
of the C function and its return code. -/
inductive Error where
  | CFunctionFailed (name : String) (return_code : Int)
deriving DecidableEq, Repr

/-- Observable outcome of a wrapper call: success value, recoverable error,
or a Rust panic (fatal precondition / invariant violation). -/
inductive Outcome (α : Type) where
  | ok (val : α)
  | err (e : Error)
  | panic
deriving DecidableEq, Repr

/-- The result buffer as handed across the native boundary: what matters at
the boundary is its allocated capacity. -/
structure ResultBuffer where
  capacity : Nat
deriving DecidableEq, Repr

/-- From src/src/lib.rs `create_buffer_for_result`:
Vec::with_capacity(FUZZY_MAX_RESULT). -/
def create_buffer_for_result : ResultBuffer := ⟨FUZZY_MAX_RESULT⟩

/-- From src/src/lib.rs `str_to_cstring`: CString::new(s).unwrap().
CString::new fails exactly when the bytes contain an interior NUL; unwrap
turns that failure into a panic (`none` here). On success the C string is
the bytes followed by a terminating NUL. -/
def str_to_cstring (s : List Nat) : Option (List Nat) :=
  if s.contains 0 then none else some (s ++ [0])

/-- UTF-8 validity of a byte list, as checked by Rust's
String::from_utf8 (core::str run_utf8_validation): ASCII bytes stand alone;
0xC2-0xDF start 2-byte sequences; 0xE0/0xE1-0xEC,0xEE,0xEF/0xED start 3-byte
sequences with the usual continuation ranges excluding overlongs and
surrogates; 0xF0/0xF1-0xF3/0xF4 start 4-byte sequences bounded by U+10FFFF;
anything else is invalid. -/
def utf8Valid : List Nat → Bool
  | [] => true
  | b :: rest =>
    if b ≤ 0x7F then utf8Valid rest
    else if 0xC2 ≤ b ∧ b ≤ 0xDF then
      match rest with
      | b2 :: rest2 => decide (0x80 ≤ b2 ∧ b2 ≤ 0xBF) && utf8Valid rest2
      | [] => false
    else if b = 0xE0 then
      match rest with
      | b2 :: b3 :: rest2 =>
          decide (0xA0 ≤ b2 ∧ b2 ≤ 0xBF) && decide (0x80 ≤ b3 ∧ b3 ≤ 0xBF) &&
            utf8Valid rest2
      | _ => false
    else if (0xE1 ≤ b ∧ b ≤ 0xEC) ∨ b = 0xEE ∨ b = 0xEF then
      match rest with
      | b2 :: b3 :: rest2 =>
          decide (0x80 ≤ b2 ∧ b2 ≤ 0xBF) && decide (0x80 ≤ b3 ∧ b3 ≤ 0xBF) &&
            utf8Valid rest2
      | _ => false
    else if b = 0xED then
      match rest with
      | b2 :: b3 :: rest2 =>
          decide (0x80 ≤ b2 ∧ b2 ≤ 0x9F) && decide (0x80 ≤ b3 ∧ b3 ≤ 0xBF) &&
            utf8Valid rest2
      | _ => false
    else if b = 0xF0 then
      match rest with
      | b2 :: b3 :: b4 :: rest2 =>
          decide (0x90 ≤ b2 ∧ b2 ≤ 0xBF) && decide (0x80 ≤ b3 ∧ b3 ≤ 0xBF) &&
            decide (0x80 ≤ b4 ∧ b4 ≤ 0xBF) && utf8Valid rest2
      | _ => false
    else if 0xF1 ≤ b ∧ b ≤ 0xF3 then
      match rest with
      | b2 :: b3 :: b4 :: rest2 =>
          decide (0x80 ≤ b2 ∧ b2 ≤ 0xBF) && decide (0x80 ≤ b3 ∧ b3 ≤ 0xBF) &&
            decide (0x80 ≤ b4 ∧ b4 ≤ 0xBF) && utf8Valid rest2
      | _ => false
    else if b = 0xF4 then
      match rest with
      | b2 :: b3 :: b4 :: rest2 =>
          decide (0x80 ≤ b2 ∧ b2 ≤ 0x8F) && decide (0x80 ≤ b3 ∧ b3 ≤ 0xBF) &&
            decide (0x80 ≤ b4 ∧ b4 ≤ 0xBF) && utf8Valid rest2
      | _ => false
    else false

/-- From src/src/lib.rs `path_as_cstring`:
path.as_ref().to_str().unwrap() panics unless the path bytes are valid
UTF-8; the resulting string then goes through `str_to_cstring`. -/
def path_as_cstring (path : List Nat) : Option (List Nat) :=
  if utf8Valid path then str_to_cstring path else none

/-- The scan loop of src/src/lib.rs `result_buffer_to_string`: length of the
longest zero-free prefix, i.e. the index of the first zero byte (or the whole
length when no zero byte occurs). -/
def firstZeroLen : List Nat → Nat
  | [] => 0
  | b :: rest => if b = 0 then 0 else firstZeroLen rest + 1

/-- The set_len/scan/set_len sequence of src/src/lib.rs
`result_buffer_to_string` on success: view the first FUZZY_MAX_RESULT bytes
of the allocation (set_len(FUZZY_MAX_RESULT)), scan them for the first zero
byte with the loop bounded by FUZZY_MAX_RESULT, and truncate to that index
(set_len(len)). -/
def truncatedResult (result : List Nat) : List Nat :=
  (result.take FUZZY_MAX_RESULT).take
    (firstZeroLen (result.take FUZZY_MAX_RESULT))

/-- From src/src/lib.rs `result_buffer_to_string`: on non-zero status,
`Err(Error::CFunctionFailed)` with the libfuzzy function name and the raw
return code. On status 0 the buffer is truncated at the first zero byte
(see `truncatedResult`) and String::from_utf8(...).unwrap() panics unless
the truncated bytes are valid UTF-8. -/
def result_buffer_to_string (libfuzzy_func : String) (result : List Nat)
    (rc : Int) : Outcome (List Nat) :=
  if rc ≠ 0 then
    Outcome.err (Error.CFunctionFailed libfuzzy_func rc)
  else if utf8Valid (truncatedResult result) then
    Outcome.ok (truncatedResult result)
  else
    Outcome.panic

/-- From src/src/lib.rs `compare`: converts both hashes to C strings
(panicking on embedded NUL), calls fuzzy_compare — whose returned score is
the parameter `nativeScore` — maps -1 to the error and any other score to
`Ok(score as u8)`; the `as u8` cast is reduction modulo 256. -/
def compare (hash1 hash2 : List Nat) (nativeScore : Int) : Outcome Nat :=
  match str_to_cstring hash1 with
  | none => Outcome.panic
  | some _ =>
    match str_to_cstring hash2 with
    | none => Outcome.panic
    | some _ =>
      if nativeScore = -1 then
        Outcome.err (Error.CFunctionFailed "fuzzy_compare" (-1))
      else
        Outcome.ok (nativeScore % 256).toNat

/-- From src/src/lib.rs `hash`: asserts len(buf) ≤ u32::MAX (2^32 - 1),
panicking otherwise before anything else happens; then allocates the result
buffer, calls fuzzy_hash_buf — modelled by the oracle `native`, which maps
the handed buffer to the returned status and the contents of the buffer's
memory after the call — and recovers the string. -/
def hash (buf : List Nat) (native : ResultBuffer → Int × List Nat) :
    Outcome (List Nat) :=
  if buf.length ≤ 2 ^ 32 - 1 then
    result_buffer_to_string "fuzzy_hash_buf"
      (native create_buffer_for_result).2 (native create_buffer_for_result).1
  else
    Outcome.panic

/-- From src/src/lib.rs `hash_from_file`: allocates the result buffer,
converts the path (panicking if it is not UTF-8 or has an embedded NUL),
calls fuzzy_hash_filename — modelled by the oracle `native` — and recovers
the string. -/
def hash_from_file (file_path : List Nat)
    (native : ResultBuffer → Int × List Nat) : Outcome (List Nat) :=
  match path_as_cstring file_path with
  | none => Outcome.panic
  | some _ =>
    result_buffer_to_string "fuzzy_hash_filename"
      (native create_buffer_for_result).2 (native create_buffer_for_result).1

/-- Modelled from the spec: the behavior of the native hashing primitive is
implemented by the external libfuzzy C library, which is not under src/
(src/libfuzzy-sys/lib.rs only declares fuzzy_hash_buf). Per the spec, the
signatures the native library emits — those recovered from a successful
hashing call — are well-formed, for an abstract well-formedness predicate
the spec does not define further (the signature grammar is a non-goal). -/
def EmitsWellFormed (native : ResultBuffer → Int × List Nat)
    (WellFormed : List Nat → Prop) : Prop :=
  ∀ input s : List Nat, hash input native = Outcome.ok s → WellFormed s

/-- Modelled from the spec: the native comparison primitive fuzzy_compare
is external C code not under src/ (only declared in
src/libfuzzy-sys/lib.rs). Per the spec, for all pairs of identical
well-formed signatures the comparison returns exactly 100; at the native
boundary the two arguments are the NUL-terminated forms of the
signature. -/
def SelfCompareGives100 (fuzzy_compare : List Nat → List Nat → Int)
    (WellFormed : List Nat → Prop) : Prop :=
  ∀ s : List Nat, WellFormed s → fuzzy_compare (s ++ [0]) (s ++ [0]) = 100

/-
Helper lemmas about the scan loop of result_buffer_to_string.
-/

/-- The scan never goes past the end of the scanned bytes. -/
theorem firstZeroLen_le_length (l : List Nat) : firstZeroLen l ≤ l.length := by
  induction l with
  | nil => simp [firstZeroLen]
  | cons b rest ih =>
    by_cases hb : b = 0
    · simp [firstZeroLen, hb]
    · simp only [firstZeroLen, hb, if_false, List.length_cons]
      omega

/-- Every byte strictly before the scan's stopping index is non-zero. -/
theorem getD_lt_firstZeroLen_ne_zero (l : List Nat) :
    ∀ i, i < firstZeroLen l → l.getD i 0 ≠ 0 := by
  induction l with
  | nil => intro i hi; simp [firstZeroLen] at hi
  | cons b rest ih =>
    intro i hi
    by_cases hb : b = 0
    · simp [firstZeroLen, hb] at hi
    · cases i with
      | zero => simpa [List.getD] using hb
      | succ j =>
        simp only [firstZeroLen, hb, if_false] at hi
        simpa [List.getD] using ih j (by omega)

/-- When the scan stops strictly inside the bytes, it stops at a zero byte. -/
theorem getD_firstZeroLen_eq_zero (l : List Nat)
    (h : firstZeroLen l < l.length) : l.getD (firstZeroLen l) 0 = 0 := by
  induction l with
  | nil => simp at h
  | cons b rest ih =>
    by_cases hb : b = 0
    · simp [firstZeroLen, hb, List.getD]
    · simp only [firstZeroLen, hb, if_false, List.length_cons] at h ⊢
      simpa [List.getD] using ih (by omega)

/-- The truncated prefix contains no zero byte. -/
theorem not_mem_take_firstZeroLen (l : List Nat) :
    0 ∉ l.take (firstZeroLen l) := by
  induction l with
  | nil => simp
  | cons b rest ih =>
    by_cases hb : b = 0
    · simp [firstZeroLen, hb]
    · simp only [firstZeroLen, hb, if_false, List.take_succ_cons,
        List.mem_cons, not_or]
      exact ⟨fun h => hb h.symm, ih⟩

/-- When no zero byte occurs at all, the scan runs to the end of the bytes. -/
theorem firstZeroLen_eq_length_of_not_mem (l : List Nat) (h : 0 ∉ l) :
    firstZeroLen l = l.length := by
  induction l with
  | nil => simp [firstZeroLen]
  | cons b rest ih =>
    simp only [List.mem_cons, not_or] at h
    have hb : b ≠ 0 := fun hb => h.1 hb.symm
    simp [firstZeroLen, hb, ih h.2]

/-- For a buffer of exactly the allocated capacity — as every buffer handed
to `result_buffer_to_string` is by construction — the truncation is the
zero-free prefix of the buffer itself. -/
theorem truncatedResult_of_length_eq (buf : List Nat)
    (hlen : buf.length = FUZZY_MAX_RESULT) :
    truncatedResult buf = buf.take (firstZeroLen buf) := by
  unfold truncatedResult
  rw [← hlen, List.take_length]

/-- The truncated signature never contains a zero byte. -/
theorem truncatedResult_no_nul (result : List Nat) :
    0 ∉ truncatedResult result :=
  not_mem_take_firstZeroLen _

/-- A successful hash result is exactly the truncation of the buffer filled
by the native call, and therefore contains no NUL byte. -/
theorem hash_ok_eq_truncated (input s : List Nat)
    (native : ResultBuffer → Int × List Nat)
    (h : hash input native = Outcome.ok s) :
    s = truncatedResult (native create_buffer_for_result).2 ∧ 0 ∉ s := by
  by_cases hlen : input.length ≤ 2 ^ 32 - 1
  · rw [hash, if_pos hlen] at h
    by_cases hrc : (native create_buffer_for_result).1 ≠ 0
    · rw [result_buffer_to_string, if_pos hrc] at h
      exact absurd h (by simp)
    · rw [result_buffer_to_string, if_neg hrc] at h
      by_cases hv : utf8Valid
          (truncatedResult (native create_buffer_for_result).2) = true
      · rw [if_pos hv] at h
        injection h with h
        refine ⟨h.symm, ?_⟩
        rw [← h]
        exact truncatedResult_no_nul _
      · rw [if_neg hv] at h
        exact absurd h (by simp)
  · rw [hash, if_neg hlen] at h
    exact absurd h (by simp)

/-- C1: for every pair of NUL-free input strings (the precondition under
which compare reaches the native call), `compare` returns an error exactly
when fuzzy_compare returned -1, in which case that error is
CFunctionFailed "fuzzy_compare" (-1); any native value in [0, 100] is
returned as Ok of that same score. The Result type returns either a score
or an error, never both at once. -/
theorem compare_error_iff_native_minus_one (h1 h2 : List Nat) (score : Int)
    (hn1 : 0 ∉ h1) (hn2 : 0 ∉ h2) :
    (compare h1 h2 score
        = Outcome.err (Error.CFunctionFailed "fuzzy_compare" (-1))
      ↔ score = -1)
    ∧ (∀ e, compare h1 h2 score = Outcome.err e →
        e = Error.CFunctionFailed "fuzzy_compare" (-1))
    ∧ (0 ≤ score → score ≤ 100 →
        compare h1 h2 score = Outcome.ok score.toNat) := by
  by_cases hs : score = -1
  · subst hs
    refine ⟨⟨fun _ => rfl, fun _ => ?_⟩, fun e he => ?_, fun h0 _ => by omega⟩
    · simp [compare, str_to_cstring, hn1, hn2]
    · simp [compare, str_to_cstring, hn1, hn2] at he
      exact he.symm
  · have hcmp : compare h1 h2 score = Outcome.ok (score % 256).toNat := by
      simp [compare, str_to_cstring, hn1, hn2, hs]
    refine ⟨⟨fun h => ?_, fun h => absurd h hs⟩, fun e he => ?_, fun h0 h100 => ?_⟩
    · rw [hcmp] at h; exact absurd h (by simp)
    · rw [hcmp] at he; exact absurd he (by simp)
    · rw [hcmp]
      have : score % 256 = score := by omega
      rw [this]

/-- Witness for C1 at concrete inputs: native score -1 yields the error and
native score 100 yields Ok 100 on the NUL-free signature bytes "3". -/
theorem compare_error_iff_native_minus_one_witness :
    compare [51] [52] (-1)
        = Outcome.err (Error.CFunctionFailed "fuzzy_compare" (-1))
    ∧ compare [51] [52] 100 = Outcome.ok 100 := by
  constructor
  · exact (compare_error_iff_native_minus_one [51] [52] (-1)
      (by decide) (by decide)).1.2 rfl
  · exact (compare_error_iff_native_minus_one [51] [52] 100
      (by decide) (by decide)).2.2 (by decide) (by decide)

/-- C4: hash accepts every input of length at most 2^32 - 1, proceeding to
the native call whose outcome alone then determines the result; for every
input of length 2^32 or more it panics identically for every native oracle
— so before, and independently of, any native call — and in particular the
outcome is never a recoverable error. -/
theorem hash_length_precondition :
    (∀ (input : List Nat) (native : ResultBuffer → Int × List Nat),
        input.length ≤ 2 ^ 32 - 1 →
        hash input native = result_buffer_to_string "fuzzy_hash_buf"
          (native create_buffer_for_result).2
          (native create_buffer_for_result).1)
    ∧ (∀ (input : List Nat) (native : ResultBuffer → Int × List Nat),
        2 ^ 32 ≤ input.length → hash input native = Outcome.panic) := by
  constructor
  · intro input native h
    rw [hash, if_pos h]
  · intro input native h
    rw [hash, if_neg (by omega)]

/-- Witness for C4 at the boundary: an input of exactly 2^32 - 1 bytes is
accepted (and, with native status 1, surfaces the recoverable error), while
an input of exactly 2^32 bytes panics. -/
theorem hash_length_precondition_witness :
    hash (List.replicate (2 ^ 32 - 1) 0) (fun _ => (1, []))
        = Outcome.err (Error.CFunctionFailed "fuzzy_hash_buf" 1)
    ∧ hash (List.replicate (2 ^ 32) 0) (fun _ => (1, [])) = Outcome.panic := by
  constructor
  · rw [hash_length_precondition.1 _ _ (le_of_eq (List.length_replicate _ _))]
    decide
  · exact hash_length_precondition.2 _ _ (ge_of_eq (List.length_replicate _ _))

/-- C5: a compare call in which either input contains an embedded NUL byte
panics for every native score (so before the native boundary is crossed),
and a hash_from_file call whose path is not NUL-free valid UTF-8 panics for
every native oracle; neither condition ever surfaces as a recoverable
error. -/
theorem embedded_nul_or_bad_path_panics :
    (∀ (h1 h2 : List Nat) (score : Int), 0 ∈ h1 ∨ 0 ∈ h2 →
        compare h1 h2 score = Outcome.panic)
    ∧ (∀ (p : List Nat) (native : ResultBuffer → Int × List Nat),
        ¬(utf8Valid p = true ∧ 0 ∉ p) →
        hash_from_file p native = Outcome.panic) := by
  constructor
  · intro h1 h2 score h
    rcases h with h | h
    · simp [compare, str_to_cstring, h]
    · by_cases hm1 : 0 ∈ h1
      · simp [compare, str_to_cstring, hm1]
      · simp [compare, str_to_cstring, hm1, h]
  · intro p native h
    by_cases hu : utf8Valid p = true
    · have hm : 0 ∈ p := by
        by_contra hm
        exact h ⟨hu, hm⟩
      simp [hash_from_file, path_as_cstring, str_to_cstring, hu, hm]
    · simp only [Bool.not_eq_true] at hu
      simp [hash_from_file, path_as_cstring, hu]

/-- Witness for C5 at concrete inputs: a NUL in either compare argument, a
non-UTF-8 path byte 0xFF, and a path with an embedded NUL all panic. -/
theorem embedded_nul_or_bad_path_panics_witness :
    compare [0] [51] 100 = Outcome.panic
    ∧ compare [51] [0] 100 = Outcome.panic
    ∧ hash_from_file [255] (fun _ => (0, [])) = Outcome.panic
    ∧ hash_from_file [47, 0] (fun _ => (0, [])) = Outcome.panic := by
  refine ⟨?_, ?_, ?_, ?_⟩
  · exact embedded_nul_or_bad_path_panics.1 [0] [51] 100 (Or.inl (by decide))
  · exact embedded_nul_or_bad_path_panics.1 [51] [0] 100 (Or.inr (by decide))
  · exact embedded_nul_or_bad_path_panics.2 [255] _ (by decide)
  · exact embedded_nul_or_bad_path_panics.2 [47, 0] _ (by decide)

/-- C3: both hashing wrappers hand the native call exactly the buffer built
by create_buffer_for_result (whenever the native call is reached), and that
buffer's capacity is 2 * 64 + 20 = 148 by construction — at least 148, with
no runtime check anywhere in the wrappers. -/
theorem buffer_capacity_invariant :
    create_buffer_for_result.capacity = 2 * 64 + 20
    ∧ 148 ≤ create_buffer_for_result.capacity
    ∧ (∀ (input : List Nat) (native : ResultBuffer → Int × List Nat),
        input.length ≤ 2 ^ 32 - 1 →
        hash input native = result_buffer_to_string "fuzzy_hash_buf"
          (native create_buffer_for_result).2
          (native create_buffer_for_result).1)
    ∧ (∀ (p cs : List Nat) (native : ResultBuffer → Int × List Nat),
        path_as_cstring p = some cs →
        hash_from_file p native = result_buffer_to_string "fuzzy_hash_filename"
          (native create_buffer_for_result).2
          (native create_buffer_for_result).1) := by
  refine ⟨rfl, by decide, fun input native h => ?_, fun p cs native h => ?_⟩
  · rw [hash, if_pos h]
  · rw [hash_from_file, h]

/-- Witness for C3 at concrete inputs: both wrappers reduce to the recovery
of the buffer produced by the native oracle on create_buffer_for_result. -/
theorem buffer_capacity_invariant_witness :
    hash [] (fun _ => (0, [])) = result_buffer_to_string "fuzzy_hash_buf" [] 0
    ∧ hash_from_file [97] (fun _ => (0, []))
        = result_buffer_to_string "fuzzy_hash_filename" [] 0 := by
  constructor
  · exact buffer_capacity_invariant.2.2.1 [] _ (by decide)
  · exact buffer_capacity_invariant.2.2.2 [97] [97, 0] _ (by decide)

/-- C6 counterexample: with native status 1, the error returned by hash
names "fuzzy_hash_buf", not "hash_buf", and the error returned by
hash_from_file names "fuzzy_hash_filename", not "hash_filename". -/
theorem error_name_counterexample :
    hash [] (fun _ => (1, []))
        = Outcome.err (Error.CFunctionFailed "fuzzy_hash_buf" 1)
    ∧ hash [] (fun _ => (1, []))
        ≠ Outcome.err (Error.CFunctionFailed "hash_buf" 1)
    ∧ hash_from_file [97] (fun _ => (1, []))
        = Outcome.err (Error.CFunctionFailed "fuzzy_hash_filename" 1)
    ∧ hash_from_file [97] (fun _ => (1, []))
        ≠ Outcome.err (Error.CFunctionFailed "hash_filename" 1) := by
  refine ⟨by decide, by decide, by decide, by decide⟩

/-- C6 amended: every recoverable error returned by hash carries the C
function name "fuzzy_hash_buf" together with the raw native status code,
and every recoverable error returned by hash_from_file carries
"fuzzy_hash_filename" together with the raw native status code. -/
theorem error_names_carry_native_function :
    (∀ (input : List Nat) (native : ResultBuffer → Int × List Nat) (e : Error),
        hash input native = Outcome.err e →
        (native create_buffer_for_result).1 ≠ 0
        ∧ e = Error.CFunctionFailed "fuzzy_hash_buf"
            (native create_buffer_for_result).1)
    ∧ (∀ (p : List Nat) (native : ResultBuffer → Int × List Nat) (e : Error),
        hash_from_file p native = Outcome.err e →
        (native create_buffer_for_result).1 ≠ 0
        ∧ e = Error.CFunctionFailed "fuzzy_hash_filename"
            (native create_buffer_for_result).1) := by
  constructor
  · intro input native e h
    by_cases hlen : input.length ≤ 2 ^ 32 - 1
    · rw [hash, if_pos hlen] at h
      by_cases hrc : (native create_buffer_for_result).1 ≠ 0
      · rw [result_buffer_to_string, if_pos hrc] at h
        exact ⟨hrc, by injection h with h; exact h.symm⟩
      · rw [result_buffer_to_string, if_neg hrc] at h
        by_cases hv : utf8Valid (truncatedResult (native create_buffer_for_result).2) = true
        · rw [if_pos hv] at h; exact absurd h (by simp)
        · rw [if_neg hv] at h; exact absurd h (by simp)
    · rw [hash, if_neg hlen] at h
      exact absurd h (by simp)
  · intro p native e h
    rw [hash_from_file] at h
    cases hp : path_as_cstring p with
    | none => rw [hp] at h; exact absurd h (by simp)
    | some cs =>
      rw [hp] at h
      by_cases hrc : (native create_buffer_for_result).1 ≠ 0
      · rw [result_buffer_to_string, if_pos hrc] at h
        exact ⟨hrc, by injection h with h; exact h.symm⟩
      · rw [result_buffer_to_string, if_neg hrc] at h
        by_cases hv : utf8Valid (truncatedResult (native create_buffer_for_result).2) = true
        · rw [if_pos hv] at h; exact absurd h (by simp)
        · rw [if_neg hv] at h; exact absurd h (by simp)

/-- Witness for C6 amended: concrete failing calls with status 7 do return
errors, and at them the amended claim's conclusion holds. -/
theorem error_names_carry_native_function_witness :
    hash [] (fun _ => (7, []))
        = Outcome.err (Error.CFunctionFailed "fuzzy_hash_buf" 7)
    ∧ (7 : Int) ≠ 0
    ∧ hash_from_file [97] (fun _ => (7, []))
        = Outcome.err (Error.CFunctionFailed "fuzzy_hash_filename" 7)
    ∧ Error.CFunctionFailed "fuzzy_hash_filename" 7
        = Error.CFunctionFailed "fuzzy_hash_filename" 7 := by
  refine ⟨by decide, ?_, by decide, ?_⟩
  · exact (error_names_carry_native_function.1 [] (fun _ => (7, []))
      (Error.CFunctionFailed "fuzzy_hash_buf" 7) (by decide)).1
  · exact (error_names_carry_native_function.2 [97] (fun _ => (7, []))
      (Error.CFunctionFailed "fuzzy_hash_filename" 7) (by decide)).2.symm ▸ rfl

/-- C8 counterexample: the native value 300 (outside [0, 100] and not -1)
is not passed through unchanged: the `as u8` cast wraps it to 44, so
compare returns Ok 44, not Ok 300. -/
theorem compare_passthrough_counterexample :
    compare [51] [51] 300 = Outcome.ok 44
    ∧ compare [51] [51] 300 ≠ Outcome.ok 300 := by
  exact ⟨by decide, by decide⟩

/-- C8 amended: for every native value other than -1 — including values
outside [0, 100] — compare performs no contract-violation check and returns
Ok of the value reduced modulo 256 by the `as u8` cast; values in [0, 255]
are passed through unchanged. -/
theorem compare_no_range_check (h1 h2 : List Nat) (score : Int)
    (hn1 : 0 ∉ h1) (hn2 : 0 ∉ h2) (hs : score ≠ -1) :
    compare h1 h2 score = Outcome.ok (score % 256).toNat
    ∧ (0 ≤ score → score ≤ 255 → (score % 256).toNat = score.toNat) := by
  constructor
  · simp [compare, str_to_cstring, hn1, hn2, hs]
  · intro h0 h255
    have h : score % 256 = score := by omega
    rw [h]

/-- Witness for C8 amended: the out-of-range native value 200 passes
through unchanged as Ok 200. -/
theorem compare_no_range_check_witness :
    compare [51] [51] 200 = Outcome.ok 200 := by
  exact (compare_no_range_check [51] [51] 200
    (by decide) (by decide) (by decide)).1

/-- C2: for a buffer of the allocated capacity 148 — as every buffer handed
to a native hashing call is by construction — the status-0 recovery scans
from offset 0 for the first zero byte, stops within the capacity bound
(never past index 147), truncates the buffer to the index of that first
zero byte, and hash / hash_from_file return the truncated, decoded bytes
as the signature. -/
theorem result_recovery_scan (buf : List Nat)
    (hlen : buf.length = FUZZY_MAX_RESULT) :
    firstZeroLen buf ≤ FUZZY_MAX_RESULT
    ∧ (∀ i, i < firstZeroLen buf → buf.getD i 0 ≠ 0)
    ∧ (firstZeroLen buf < FUZZY_MAX_RESULT → buf.getD (firstZeroLen buf) 0 = 0)
    ∧ truncatedResult buf = buf.take (firstZeroLen buf)
    ∧ (∀ f : String, utf8Valid (buf.take (firstZeroLen buf)) = true →
        result_buffer_to_string f buf 0
          = Outcome.ok (buf.take (firstZeroLen buf)))
    ∧ (∀ (input : List Nat) (native : ResultBuffer → Int × List Nat),
        input.length ≤ 2 ^ 32 - 1 →
        native create_buffer_for_result = (0, buf) →
        utf8Valid (buf.take (firstZeroLen buf)) = true →
        hash input native = Outcome.ok (buf.take (firstZeroLen buf)))
    ∧ (∀ (p cs : List Nat) (native : ResultBuffer → Int × List Nat),
        path_as_cstring p = some cs →
        native create_buffer_for_result = (0, buf) →
        utf8Valid (buf.take (firstZeroLen buf)) = true →
        hash_from_file p native
          = Outcome.ok (buf.take (firstZeroLen buf))) := by
  have htr : truncatedResult buf = buf.take (firstZeroLen buf) :=
    truncatedResult_of_length_eq buf hlen
  have hrec : ∀ f : String, utf8Valid (buf.take (firstZeroLen buf)) = true →
      result_buffer_to_string f buf 0
        = Outcome.ok (buf.take (firstZeroLen buf)) := by
    intro f hv
    rw [result_buffer_to_string, if_neg (by simp), htr, if_pos hv]
  refine ⟨hlen ▸ firstZeroLen_le_length buf,
    getD_lt_firstZeroLen_ne_zero buf,
    fun h => getD_firstZeroLen_eq_zero buf (by omega),
    htr, hrec, fun input native hl hnat hv => ?_, fun p cs native hp hnat hv => ?_⟩
  · rw [hash, if_pos hl, hnat]
    exact hrec _ hv
  · rw [hash_from_file, hp, hnat]
    exact hrec _ hv

set_option maxRecDepth 8000 in
/-- Witness for C2: a 148-byte buffer holding the signature bytes of
"3:a:a" followed by zero padding is recovered as exactly the bytes before
the first zero byte. -/
theorem result_recovery_scan_witness :
    hash [] (fun _ => (0, [51, 58, 97, 58, 97] ++ List.replicate 143 0))
        = Outcome.ok (([51, 58, 97, 58, 97] ++ List.replicate 143 0).take
            (firstZeroLen ([51, 58, 97, 58, 97] ++ List.replicate 143 0)))
    ∧ ([51, 58, 97, 58, 97] ++ List.replicate 143 0).take
          (firstZeroLen ([51, 58, 97, 58, 97] ++ List.replicate 143 0))
        = [51, 58, 97, 58, 97] := by
  constructor
  · exact (result_recovery_scan ([51, 58, 97, 58, 97] ++ List.replicate 143 0)
      (by decide)).2.2.2.2.2.1 [] _ (by decide) rfl (by decide)
  · decide

set_option maxRecDepth 8000 in
/-- C7: contrary to the crate's documented panic on a non-ASCII hash, a
status-0 buffer whose truncated bytes are valid UTF-8 but not ASCII — the
bytes 0xC3 0xA9, both above 0x7F — is silently accepted: hash returns them
as an Ok signature instead of panicking. -/
theorem non_ascii_utf8_accepted :
    hash [] (fun _ => (0, [195, 169] ++ List.replicate 146 0))
        = Outcome.ok [195, 169]
    ∧ ([195, 169] : List Nat).all (fun b => decide (b ≤ 127)) = false := by
  exact ⟨by decide, by decide⟩

set_option maxRecDepth 8000 in
/-- C10 counterexample: native status 0 with a 148-byte buffer containing
no zero byte whose content (148 bytes 0xFF) is not decodable text: the scan
stays in bounds, but hash panics at the decode step instead of returning Ok
with a 148-byte signature. -/
theorem no_terminator_counterexample :
    hash [] (fun _ => (0, List.replicate 148 255)) = Outcome.panic
    ∧ (0 : Nat) ∉ List.replicate 148 (255 : Nat)
    ∧ (List.replicate 148 (255 : Nat)).length = 148 := by
  exact ⟨by decide, by decide, by decide⟩

/-- C10 amended: if a native hashing call reports status 0 and no zero byte
occurs within the 148-byte result buffer, the scan terminates exactly at
the capacity bound 148 (no out-of-capacity access) and the signature is the
whole buffer; hash / hash_from_file then return Ok with that 148-byte
signature provided its bytes decode as text, and panic at the decode step
otherwise. -/
theorem no_terminator_full_buffer (buf : List Nat)
    (hlen : buf.length = FUZZY_MAX_RESULT) (hnz : 0 ∉ buf) :
    firstZeroLen buf = FUZZY_MAX_RESULT
    ∧ truncatedResult buf = buf
    ∧ (∀ (input : List Nat) (native : ResultBuffer → Int × List Nat),
        input.length ≤ 2 ^ 32 - 1 →
        native create_buffer_for_result = (0, buf) →
        (utf8Valid buf = true →
          hash input native = Outcome.ok buf ∧ buf.length = 148)
        ∧ (utf8Valid buf = false → hash input native = Outcome.panic))
    ∧ (∀ (p cs : List Nat) (native : ResultBuffer → Int × List Nat),
        path_as_cstring p = some cs →
        native create_buffer_for_result = (0, buf) →
        (utf8Valid buf = true →
          hash_from_file p native = Outcome.ok buf ∧ buf.length = 148)
        ∧ (utf8Valid buf = false →
          hash_from_file p native = Outcome.panic)) := by
  have hfz : firstZeroLen buf = FUZZY_MAX_RESULT :=
    (firstZeroLen_eq_length_of_not_mem buf hnz).trans hlen
  have htr : truncatedResult buf = buf := by
    rw [truncatedResult_of_length_eq buf hlen, hfz, ← hlen, List.take_length]
  have hrec : ∀ f : String,
      (utf8Valid buf = true → result_buffer_to_string f buf 0 = Outcome.ok buf)
      ∧ (utf8Valid buf = false →
          result_buffer_to_string f buf 0 = Outcome.panic) := by
    intro f
    constructor
    · intro hv
      rw [result_buffer_to_string, if_neg (by simp), htr, if_pos hv]
    · intro hv
      rw [result_buffer_to_string, if_neg (by simp), htr, if_neg (by simp [hv])]
  refine ⟨hfz, htr, fun input native hl hnat => ?_, fun p cs native hp hnat => ?_⟩
  · constructor
    · intro hv
      rw [hash, if_pos hl, hnat]
      exact ⟨(hrec _).1 hv, hlen⟩
    · intro hv
      rw [hash, if_pos hl, hnat]
      exact (hrec _).2 hv
  · constructor
    · intro hv
      rw [hash_from_file, hp, hnat]
      exact ⟨(hrec _).1 hv, hlen⟩
    · intro hv
      rw [hash_from_file, hp, hnat]
      exact (hrec _).2 hv

set_option maxRecDepth 8000 in
/-- Witness for C10 amended: a zero-free 148-byte buffer of letter bytes
0x41 is returned whole, a signature of exactly 148 bytes. -/
theorem no_terminator_full_buffer_witness :
    hash [] (fun _ => (0, List.replicate 148 65))
        = Outcome.ok (List.replicate 148 65)
    ∧ (List.replicate 148 (65 : Nat)).length = 148 := by
  exact ((no_terminator_full_buffer (List.replicate 148 65)
    (by decide) (by decide)).2.2.1 [] _ (by decide) rfl).1 (by decide)

/-- C9: round-trip self-similarity. The wrapper-level content, proved from
the code: a signature recovered by hash is a zero-free prefix of the scan,
so comparing it with itself passes the NUL precondition and reaches the
native call, whose score 100 — guaranteed by the spec-modelled native
contract for identical well-formed signatures — is returned as Ok 100. -/
theorem round_trip_self_similarity
    (WellFormed : List Nat → Prop)
    (fuzzy_compare : List Nat → List Nat → Int)
    (native : ResultBuffer → Int × List Nat)
    (hwf : EmitsWellFormed native WellFormed)
    (hcmp : SelfCompareGives100 fuzzy_compare WellFormed)
    (input s : List Nat) (h : hash input native = Outcome.ok s) :
    compare s s (fuzzy_compare (s ++ [0]) (s ++ [0])) = Outcome.ok 100 := by
  have hnul : 0 ∉ s := (hash_ok_eq_truncated input s native h).2
  have h100 : fuzzy_compare (s ++ [0]) (s ++ [0]) = 100 := hcmp s (hwf input s h)
  rw [h100]
  simp [compare, str_to_cstring, hnul]

set_option maxRecDepth 8000 in
/-- Witness for C9: the signature bytes of "3:a:a" recovered from a
successful hashing call compare with themselves to Ok 100 under a native
comparison oracle meeting the contract. -/
theorem round_trip_self_similarity_witness :
    compare [51, 58, 97, 58, 97] [51, 58, 97, 58, 97] 100 = Outcome.ok 100 := by
  exact round_trip_self_similarity (fun _ => True) (fun _ _ => 100)
    (fun _ => (0, [51, 58, 97, 58, 97] ++ List.replicate 143 0))
    (fun _ _ _ => trivial) (fun _ _ => rfl) []
    [51, 58, 97, 58, 97] (by decide)

end Ssdeep
